import Mathlib

set_option maxRecDepth 40000
set_option maxHeartbeats 1000000

/-!
Shallow embedding of the HashVote voting ledger (FastAPI + SQLite).

Source files embedded here:
* `app/pow.py`   — SHA-256 block hashing, nonce search, PoW verification,
  difficulty-target rendering.
* `app/models.py` — the `Block` row type and its uniqueness constraints.
* `app/main.py`  — the two-phase `/vote` endpoint and `verify_chain_integrity`.
* `app/sql_functions.py` — `SQLManager.verify_blockchain_integrity`, the
  ledger-wide diagnostic pass.

Python `datetime` timestamps are embedded as their ISO-format strings, which
is exactly the form in which the code hashes them (`timestamp.isoformat()`).
Wall-clock readings (`datetime.utcnow()`, `time.time()`) are passed in as
explicit parameters or Boolean oracles.
-/

namespace HashVote

/-! ### Hex strings -/

def hexDigit (n : Nat) : Char :=
  if n < 10 then Char.ofNat (48 + n) else Char.ofNat (87 + n)

/-- Render a 32-bit word as 8 lowercase hex characters. -/
def toHexWord (n : Nat) : String :=
  String.mk ((List.range 8).map fun i => hexDigit ((n >>> (28 - 4 * i)) % 16))

/-- Render a byte as two lowercase hex characters (Python `f"{v:02x}"`). -/
def toHexByte (n : Nat) : String :=
  String.mk [hexDigit ((n >>> 4) % 16), hexDigit (n % 16)]

def hexDigitVal (c : Char) : Nat :=
  if 97 ≤ c.toNat then c.toNat - 87
  else if 65 ≤ c.toNat then c.toNat - 55
  else c.toNat - 48

/-- Python `int(s, 16)` on a hex string. -/
def hexToNat (s : String) : Nat :=
  s.data.foldl (fun acc c => acc * 16 + hexDigitVal c) 0

/-! ### UTF-8 encoding (Python `str.encode("utf-8")`) -/

def utf8Char (c : Char) : List Nat :=
  let n := c.toNat
  if n < 128 then [n]
  else if n < 2048 then [192 ||| (n >>> 6), 128 ||| (n &&& 63)]
  else if n < 65536 then
    [224 ||| (n >>> 12), 128 ||| ((n >>> 6) &&& 63), 128 ||| (n &&& 63)]
  else
    [240 ||| (n >>> 18), 128 ||| ((n >>> 12) &&& 63),
     128 ||| ((n >>> 6) &&& 63), 128 ||| (n &&& 63)]

def utf8Encode (s : String) : List Nat :=
  (s.data.map utf8Char).flatten

/-! ### SHA-256 (`hashlib.sha256`), over a list of bytes -/

def w32 : Nat := 4294967296

def rotr (n x : Nat) : Nat := ((x >>> n) ||| (x <<< (32 - n))) % w32

def ssig0 (x : Nat) : Nat := (rotr 7 x) ^^^ (rotr 18 x) ^^^ (x >>> 3)
def ssig1 (x : Nat) : Nat := (rotr 17 x) ^^^ (rotr 19 x) ^^^ (x >>> 10)
def bsig0 (x : Nat) : Nat := (rotr 2 x) ^^^ (rotr 13 x) ^^^ (rotr 22 x)
def bsig1 (x : Nat) : Nat := (rotr 6 x) ^^^ (rotr 11 x) ^^^ (rotr 25 x)
def ch (x y z : Nat) : Nat := (x &&& y) ^^^ ((x ^^^ 4294967295) &&& z)
def maj (x y z : Nat) : Nat := (x &&& y) ^^^ (x &&& z) ^^^ (y &&& z)

/-- The 64 SHA-256 round constants of FIPS 180-2, as decimal values. -/
def shaK : List Nat :=
  [1116352408, 1899447441, 3049323471, 3921009573, 961987163,
   1508970993, 2453635748, 2870763221, 3624381080, 310598401,
   607225278, 1426881987, 1925078388, 2162078206, 2614888103,
   3248222580, 3835390401, 4022224774, 264347078, 604807628,
   770255983, 1249150122, 1555081692, 1996064986, 2554220882,
   2821834349, 2952996808, 3210313671, 3336571891, 3584528711,
   113926993, 338241895, 666307205, 773529912, 1294757372,
   1396182291, 1695183700, 1986661051, 2177026350, 2456956037,
   2730485921, 2820302411, 3259730800, 3345764771, 3516065817,
   3600352804, 4094571909, 275423344, 430227734, 506948616,
   659060556, 883997877, 958139571, 1322822218, 1537002063,
   1747873779, 1955562222, 2024104815, 2227730452, 2361852424,
   2428436474, 2756734187, 3204031479, 3329325298]

/-- The eight SHA-256 initial state words, as decimal values. -/
def shaH0 : List Nat :=
  [1779033703, 3144134277, 1013904242,
   2773480762, 1359893119, 2600822924,
   528734635, 1541459225]

/-- 8-byte big-endian encoding of the bit length. -/
def lenBytes (n : Nat) : List Nat :=
  [(n >>> 56) % 256, (n >>> 48) % 256, (n >>> 40) % 256, (n >>> 32) % 256,
   (n >>> 24) % 256, (n >>> 16) % 256, (n >>> 8) % 256, n % 256]

/-- Merkle–Damgård padding to a multiple of 64 bytes. -/
def padMessage (msg : List Nat) : List Nat :=
  let z := (120 - ((msg.length + 1) % 64)) % 64
  msg ++ [128] ++ List.replicate z 0 ++ lenBytes (8 * msg.length)

/-- Group bytes into big-endian 32-bit words. -/
def toWords : List Nat → List Nat
  | b0 :: b1 :: b2 :: b3 :: rest =>
      (((b0 * 256 + b1) * 256 + b2) * 256 + b3) :: toWords rest
  | _ => []

/-- Extend the message schedule; `w` holds the words most-recent-first. -/
def schedStep (w : List Nat) : Nat :=
  (ssig1 (w.getD 1 0) + w.getD 6 0 + ssig0 (w.getD 14 0) + w.getD 15 0) % w32

def extendW : Nat → List Nat → List Nat
  | 0, w => w
  | k + 1, w => extendW k (schedStep w :: w)

/-- One compression round on state `[a,b,c,d,e,f,g,h]`. -/
def shaRound (s : List Nat) (ki wi : Nat) : List Nat :=
  match s with
  | [a, b, c, d, e, f, g, h] =>
      let t1 := (h + bsig1 e + ch e f g + ki + wi) % w32
      let t2 := (bsig0 a + maj a b c) % w32
      [(t1 + t2) % w32, a, b, c, (d + t1) % w32, e, f, g]
  | _ => s

def shaRounds : List Nat → List Nat → List Nat → List Nat
  | s, k :: ks, v :: vs => shaRounds (shaRound s k v) ks vs
  | s, _, _ => s

/-- Compress one 64-byte chunk into the running hash state. -/
def shaChunk (h : List Nat) (chunk : List Nat) : List Nat :=
  let w16 := toWords chunk
  let w := (extendW 48 w16.reverse).reverse
  let s := shaRounds h shaK w
  List.zipWith (fun a b => (a + b) % w32) h s

def shaChunks : Nat → List Nat → List Nat → List Nat
  | 0, h, _ => h
  | _, h, [] => h
  | fuel + 1, h, l => shaChunks fuel (shaChunk h (l.take 64)) (l.drop 64)

/-- SHA-256 digest of a byte list, as a 64-character lowercase hex string
(Python `hashlib.sha256(data).hexdigest()`). -/
def sha256Hex (msg : List Nat) : String :=
  let padded := padMessage msg
  let h := shaChunks padded.length shaH0 padded
  String.join (h.map toHexWord)

/-- Sanity check of the SHA-256 embedding against the FIPS 180-2 test
vector for the message `"abc"`. -/
theorem sha256_abc :
    sha256Hex (utf8Encode "abc") =
      "ba7816bf8f01cfea414140de5dae2223b00361a396177a9cb410ff61f20015ad" := by
  decide

/-! ### `app/pow.py` -/

/-- `pow.hash_block`: SHA-256 over the concatenation
`poll_id + voter_hash + choice + timestamp.isoformat() + prev_hash + str(nonce)`.
The `timestamp` parameter is the ISO-format string of the Python `datetime`. -/
def hash_block (poll_id voter_hash choice timestamp prev_hash : String)
    (nonce : Nat) : String :=
  sha256Hex (utf8Encode
    (poll_id ++ voter_hash ++ choice ++ timestamp ++ prev_hash ++ toString nonce))

/-- `pow.verify_pow`: the hash, read as a hex integer, must be below
`2 ** (256 - difficulty_bits)`. -/
def verify_pow (poll_id voter_hash choice timestamp prev_hash : String)
    (nonce : Nat) (difficulty_bits : Nat) : Bool :=
  hexToNat (hash_block poll_id voter_hash choice timestamp prev_hash nonce)
    < 2 ^ (256 - difficulty_bits)

/-- Python truthiness of the `timeout` argument in `if timeout and ...`:
`None` and `0` are falsy, every other number is truthy. -/
def timeoutActive : Option ℚ → Bool
  | none => false
  | some t => decide (t ≠ 0)

/-- The loop body of `pow.compute_nonce`.  `active` is the truthiness of the
`timeout` argument; `timedOut k` is the oracle for the wall-clock test
`(time.time() - start_time) > timeout` at the iteration whose nonce is `k`;
`fuel` bounds the number of iterations of the (unbounded) Python loop.
`none` means the loop was still running when the fuel ran out; `some none`
is the function returning `None` (timeout); `some (some n)` is success. -/
def compute_nonce_aux (poll_id voter_hash choice timestamp prev_hash : String)
    (difficulty_bits : Nat) (active : Bool) (timedOut : Nat → Bool) :
    Nat → Nat → Option (Option Nat)
  | 0, _ => none
  | fuel + 1, nonce =>
    if active && timedOut nonce then some none
    else if hexToNat (hash_block poll_id voter_hash choice timestamp prev_hash nonce)
        < 2 ^ (256 - difficulty_bits) then some (some nonce)
    else compute_nonce_aux poll_id voter_hash choice timestamp prev_hash
      difficulty_bits active timedOut fuel (nonce + 1)

/-- `pow.compute_nonce`: sequential scan starting at nonce 0. -/
def compute_nonce (poll_id voter_hash choice timestamp prev_hash : String)
    (difficulty_bits : Nat) (timeout : Option ℚ) (timedOut : Nat → Bool)
    (fuel : Nat) : Option (Option Nat) :=
  compute_nonce_aux poll_id voter_hash choice timestamp prev_hash
    difficulty_bits (timeoutActive timeout) timedOut fuel 0

/-- A wall clock that never reports the deadline as exceeded. -/
def noTimeout : Nat → Bool := fun _ => false

/-- `pow.get_difficulty_target`.  Python `"ff" * k` for negative `k` is the
empty string, which truncated `Nat` subtraction reproduces exactly. -/
def get_difficulty_target (difficulty_bits : Nat) : String :=
  let leading_zero_bytes := difficulty_bits / 8
  let remaining_bits := difficulty_bits % 8
  let t := String.join (List.replicate leading_zero_bytes "00")
  if remaining_bits > 0 then
    t ++ toHexByte ((1 <<< (8 - remaining_bits)) - 1)
      ++ String.join (List.replicate (31 - leading_zero_bytes) "ff")
  else
    t ++ String.join (List.replicate (32 - leading_zero_bytes) "ff")

/-! ### `app/models.py` -/

/-- One row of the `blocks` table (`models.Block`).  `timestamp` is the
ISO-format string of the stored `datetime`.  A ledger is a `List Block` in
primary-key (`id`) order, i.e. insertion order. -/
structure Block where
  id : Nat
  poll_id : String
  voter_hash : String
  choice : String
  timestamp : String
  prev_hash : String
  nonce : Nat
  block_hash : String
deriving DecidableEq

/-! ### `app/main.py` -/

/-- The genesis sentinel `"0" * 64`. -/
def genesisHash : String :=
  "0000000000000000000000000000000000000000000000000000000000000000"

/-- `main.get_latest_block_hash`: hash of the poll's newest block
(`ORDER BY id DESC LIMIT 1`), or the genesis sentinel. -/
def get_latest_block_hash (db : List Block) (poll_id : String) : String :=
  match (db.filter (fun b => b.poll_id == poll_id)).getLast? with
  | some b => b.block_hash
  | none => genesisHash

/-- `main.verify_chain_integrity`, the walk over one poll's blocks with the
running expected previous hash. -/
def verify_chain_aux (difficulty_bits : Nat) : String → List Block → Bool
  | _, [] => true
  | prev, b :: rest =>
    if ¬ verify_pow b.poll_id b.voter_hash b.choice b.timestamp b.prev_hash
        b.nonce difficulty_bits then false
    else if b.block_hash ≠ hash_block b.poll_id b.voter_hash b.choice
        b.timestamp b.prev_hash b.nonce then false
    else if b.prev_hash ≠ prev then false
    else verify_chain_aux difficulty_bits b.block_hash rest

/-- `main.verify_chain_integrity(session, poll_id, difficulty_bits)`:
selects the poll's blocks in `id` order and walks them. -/
def verify_chain_integrity (db : List Block) (poll_id : String)
    (difficulty_bits : Nat) : Bool :=
  verify_chain_aux difficulty_bits genesisHash
    (db.filter (fun b => b.poll_id == poll_id))

/-- The JSON body of a `/vote` request, as far as `submit_vote` reads it.
The endpoint takes a raw `dict`; the 422 missing-field check corresponds to
the three mandatory fields being present by construction here.  `timestamp`
models a timestamp key a caller may include in the dict; the endpoint never
reads it. -/
structure VoteData where
  poll_id : String
  choice : String
  voter_hash : String
  nonce : Option Nat
  timestamp : Option String
deriving DecidableEq

/-- `models.VoteResponse`: the only fields a Phase-1 quote can carry. -/
structure VoteResponse where
  difficulty_target : String
  prev_hash : String
  message : String
deriving DecidableEq

/-- A raised `HTTPException` (status code and detail). -/
structure HTTPError where
  status : Nat
  detail : String
deriving DecidableEq

deriving instance DecidableEq for Except

/-- Python `s.startswith(p)`. -/
def listPrefixCheck : List Char → List Char → Bool
  | _, [] => true
  | [], _ :: _ => false
  | a :: s, b :: rest => if a = b then listPrefixCheck s rest else false

def strStartsWith (s p : String) : Bool := listPrefixCheck s.data p.data

/-- `session.add` + `session.commit`: the INSERT succeeds iff neither
uniqueness constraint of `models.Block` (`unique_vote` on
`(poll_id, voter_hash)`, and the unique `block_hash` column) is violated
by the database state at commit time. -/
def save_block (db : List Block) (b : Block) : Except String (List Block) :=
  if db.any (fun x => x.poll_id == b.poll_id && x.voter_hash == b.voter_hash) then
    .error "UNIQUE constraint failed: blocks.poll_id, blocks.voter_hash"
  else if db.any (fun x => x.block_hash == b.block_hash) then
    .error "UNIQUE constraint failed: blocks.block_hash"
  else .ok (db ++ [b])

/-- The `try: session.add/commit ... except: rollback` tail of
`main.submit_vote`.  `dbAtCommit` is the database state when the INSERT
runs; under concurrency it may differ from the state the advisory
duplicate check saw.  On failure the transaction is rolled back, so the
returned ledger is `dbAtCommit` unchanged. -/
def commit_vote (dbAtCommit : List Block) (b : Block) :
    Except HTTPError VoteResponse × List Block :=
  match save_block dbAtCommit b with
  | .error e => (.error ⟨500, "Failed to save vote: " ++ e⟩, dbAtCommit)
  | .ok db2 => (.ok ⟨"", "", "Vote successfully recorded"⟩, db2)

/-- `main.submit_vote` run sequentially against ledger `db`.  `now` is the
server's `datetime.utcnow()` reading at this request (ISO string); `nextId`
is the primary key the INSERT would assign. -/
def submit_vote (db : List Block) (v : VoteData) (now : String) (nextId : Nat) :
    Except HTTPError VoteResponse × List Block :=
  if db.any (fun b => b.poll_id == v.poll_id && b.voter_hash == v.voter_hash) then
    (.error ⟨409, "Voter has already voted in this poll"⟩, db)
  else
    match v.nonce with
    | none =>
      (.ok ⟨get_difficulty_target 18, get_latest_block_hash db v.poll_id,
            "Compute nonce with 18-bit leading zero requirement"⟩, db)
    | some nonce =>
      let prev_hash := get_latest_block_hash db v.poll_id
      let difficulty := if strStartsWith v.poll_id "test_" then 6 else 18
      if ¬ verify_pow v.poll_id v.voter_hash v.choice now prev_hash nonce
          difficulty then
        (.error ⟨400, "Invalid proof of work"⟩, db)
      else
        commit_vote db
          ⟨nextId, v.poll_id, v.voter_hash, v.choice, now, prev_hash, nonce,
           hash_block v.poll_id v.voter_hash v.choice now prev_hash nonce⟩

/-! ### `app/sql_functions.py` — `SQLManager.verify_blockchain_integrity` -/

/-- One step of the `prev_hash_map` walk: the violation messages (if any)
the loop appends for block `b` given the running map `m`. -/
def linkErrsStep (m : String → Option String) (b : Block) : List String :=
  if b.prev_hash ≠ genesisHash then
    match m b.poll_id with
    | none => ["ブロックID " ++ toString b.id ++ ": 前ブロックが存在しません"]
    | some h =>
      if h ≠ b.prev_hash then
        ["ブロックID " ++ toString b.id ++ ": 前ブロックハッシュが不正です"]
      else []
  else []

/-- The chain-linkage loop of `verify_blockchain_integrity`: walk all
blocks in `id` order, tracking each poll's latest block hash. -/
def linkWalk (m : String → Option String) : List Block → List String
  | [] => []
  | b :: rest =>
    linkErrsStep m b ++
      linkWalk (fun q => if q = b.poll_id then some b.block_hash else m q) rest

def votePairs (db : List Block) : List (String × String) :=
  db.map (fun b => (b.poll_id, b.voter_hash))

/-- The `GROUP BY poll_id, voter_hash HAVING COUNT(*) > 1` query: the
distinct `(poll_id, voter_hash)` pairs occurring more than once. -/
def dupPairs (db : List Block) : List (String × String) :=
  (votePairs db).dedup.filter
    (fun pv => 2 ≤ ((votePairs db).filter (fun q => decide (q = pv))).length)

def dupErr (pv : String × String) : String :=
  "重複投票: poll_id=" ++ pv.1 ++ ", voter_hash=" ++ String.take pv.2 16 ++ "..."

/-- `SQLManager.verify_blockchain_integrity`: linkage violations then
duplicate-vote violations; valid iff the error list is empty. -/
def verify_blockchain_integrity (db : List Block) : Bool × List String :=
  let errors := linkWalk (fun _ => none) db ++ (dupPairs db).map dupErr
  (errors.length == 0, errors)

/-! ### Specification-side definitions used to state the claims -/

/-- The target layout as the spec describes it: `bits / 8` zero bytes, an
optional single byte `2 ^ (8 - r) - 1`, then `"ff"` bytes up to a total of
32 bytes. -/
def target_hex_spec (bits : Nat) : String :=
  let k := bits / 8
  let r := bits % 8
  let mid := if r ≠ 0 then [2 ^ (8 - r) - 1] else []
  String.join (List.replicate k "00") ++ String.join (mid.map toHexByte)
    ++ String.join (List.replicate (32 - k - mid.length) "ff")

/-- The PoW success condition: the block hash of the fields with nonce `n`,
read as a big-endian 256-bit integer, is below `2 ^ (256 - bits)`. -/
def validNonce (p v c ts ph : String) (bits n : Nat) : Prop :=
  hexToNat (hash_block p v c ts ph n) < 2 ^ (256 - bits)

instance validNonce.dec (p v c ts ph : String) (bits : Nat) :
    DecidablePred (validNonce p v c ts ph bits) :=
  fun n =>
    inferInstanceAs (Decidable
      (hexToNat (hash_block p v c ts ph n) < 2 ^ (256 - bits)))

/-! ### Helper lemmas about the nonce search -/

theorem compute_nonce_aux_ne_some_none
    (p v c ts ph : String) (bits : Nat) (timedOut : Nat → Bool) :
    ∀ fuel start, compute_nonce_aux p v c ts ph bits false timedOut fuel start
      ≠ some none := by
  intro fuel
  induction fuel with
  | zero => intro start h; simp [compute_nonce_aux] at h
  | succ f ih =>
    intro start h
    rw [compute_nonce_aux] at h
    by_cases hs : hexToNat (hash_block p v c ts ph start) < 2 ^ (256 - bits)
    · simp [hs] at h
    · simp [hs] at h
      exact ih (start + 1) h

theorem compute_nonce_aux_sound
    (p v c ts ph : String) (bits : Nat) (active : Bool) (timedOut : Nat → Bool) :
    ∀ fuel start n,
      compute_nonce_aux p v c ts ph bits active timedOut fuel start
        = some (some n) →
      hexToNat (hash_block p v c ts ph n) < 2 ^ (256 - bits) := by
  intro fuel
  induction fuel with
  | zero => intro start n h; simp [compute_nonce_aux] at h
  | succ f ih =>
    intro start n h
    rw [compute_nonce_aux] at h
    split at h
    · simp at h
    · by_cases hs : hexToNat (hash_block p v c ts ph start) < 2 ^ (256 - bits)
      · rw [if_pos hs] at h
        simp only [Option.some.injEq] at h
        subst h
        exact hs
      · rw [if_neg hs] at h
        exact ih (start + 1) n h

theorem compute_nonce_aux_finds
    (p v c ts ph : String) (bits : Nat) (timedOut : Nat → Bool) (m : Nat)
    (hm : validNonce p v c ts ph bits m)
    (hmin : ∀ k, k < m → ¬ validNonce p v c ts ph bits k) :
    ∀ fuel start, start ≤ m → m - start < fuel →
      compute_nonce_aux p v c ts ph bits false timedOut fuel start
        = some (some m) := by
  intro fuel
  induction fuel with
  | zero => intro start _ habs; omega
  | succ f ih =>
    intro start hle hfuel
    rw [compute_nonce_aux]
    rw [if_neg (by simp : ¬ ((false && timedOut start) = true))]
    by_cases hs : hexToNat (hash_block p v c ts ph start) < 2 ^ (256 - bits)
    · rw [if_pos hs]
      have : start = m := by
        rcases Nat.lt_or_ge start m with hlt | hge
        · exact absurd hs (hmin start hlt)
        · omega
      rw [this]
    · rw [if_neg hs]
      have hne : start ≠ m := fun he => hs (he ▸ hm)
      have hlt : start < m := Nat.lt_of_le_of_ne hle hne
      exact ih (start + 1) hlt (by omega)

/-! ### Claims about `app/pow.py` -/

/-- C9: for every `difficulty_bits` (in the meaningful range `0..256` of
leading-zero bits of a 256-bit hash), `get_difficulty_target` renders
exactly the layout the spec describes — `bits / 8` `"00"` bytes, an
optional partial byte `2 ^ (8 - r) - 1`, then `"ff"` bytes up to 32 bytes
total, a 64-hex-character string — and `difficulty_bits = 0` yields the
maximal all-`"ff"` target rather than a division error. -/
theorem get_difficulty_target_spec :
    ∀ difficulty_bits : Nat, difficulty_bits ≤ 256 →
      get_difficulty_target difficulty_bits = target_hex_spec difficulty_bits ∧
      (get_difficulty_target difficulty_bits).length = 64 ∧
      get_difficulty_target 0 =
        "ffffffffffffffffffffffffffffffffffffffffffffffffffffffffffffffff"
    := by decide

/-- Witness for C9 at `difficulty_bits = 18`. -/
theorem get_difficulty_target_spec_witness :
    18 ≤ 256 ∧
      (get_difficulty_target 18 = target_hex_spec 18 ∧
        (get_difficulty_target 18).length = 64 ∧
        get_difficulty_target 0 =
          "ffffffffffffffffffffffffffffffffffffffffffffffffffffffffffffffff") :=
  ⟨by decide, get_difficulty_target_spec 18 (by decide)⟩

/-- C10: when the `timeout` argument is `None` or `0`, the deadline test
`if timeout and ...` is disabled by Python truthiness, so `compute_nonce`
can never return the not-found value (`None`), whatever the wall clock
does and however long the loop runs. -/
theorem compute_nonce_timeout_falsy_never_none :
    ∀ (p v c ts ph : String) (bits : Nat) (timeout : Option ℚ)
      (timedOut : Nat → Bool) (fuel : Nat),
      timeout = none ∨ timeout = some 0 →
      compute_nonce p v c ts ph bits timeout timedOut fuel ≠ some none := by
  intro p v c ts ph bits timeout timedOut fuel h
  have hact : timeoutActive timeout = false := by
    rcases h with h | h <;> subst h <;> simp [timeoutActive]
  rw [compute_nonce, hact]
  exact compute_nonce_aux_ne_some_none p v c ts ph bits timedOut fuel 0

/-- Witness for C10 with `timeout = 0`. -/
theorem compute_nonce_timeout_falsy_never_none_witness :
    compute_nonce "p" "v" "c" "t" "z" 18 (some 0) noTimeout 5 ≠ some none :=
  compute_nonce_timeout_falsy_never_none "p" "v" "c" "t" "z" 18 (some 0)
    noTimeout 5 (Or.inr rfl)

/-- C7: whenever `compute_nonce` returns a nonce (rather than the
not-found value), `verify_pow` accepts that nonce on the same fields and
the same `difficulty_bits`. -/
theorem compute_nonce_sound :
    ∀ (p v c ts ph : String) (bits : Nat) (timeout : Option ℚ)
      (timedOut : Nat → Bool) (fuel n : Nat),
      compute_nonce p v c ts ph bits timeout timedOut fuel = some (some n) →
      verify_pow p v c ts ph n bits = true := by
  intro p v c ts ph bits timeout timedOut fuel n h
  rw [compute_nonce] at h
  have := compute_nonce_aux_sound p v c ts ph bits (timeoutActive timeout)
    timedOut fuel 0 n h
  simpa [verify_pow] using this

/-- Witness for C7: at difficulty 0 the search succeeds at nonce 0 and
`verify_pow` accepts it. -/
theorem compute_nonce_sound_witness :
    compute_nonce "p" "v" "c" "t" "z" 0 none noTimeout 1 = some (some 0) ∧
      verify_pow "p" "v" "c" "t" "z" 0 0 = true :=
  ⟨by decide,
   compute_nonce_sound "p" "v" "c" "t" "z" 0 none noTimeout 1 0 (by decide)⟩

/-- C8: with the deadline disabled, the scan visits nonces `0, 1, 2, …` in
order, so whenever a valid nonce exists at all, the value returned (for
every sufficient iteration budget) is the least `n` whose block hash, read
as a big-endian 256-bit integer, is below `2 ^ (256 - difficulty_bits)`;
in particular every two such calls return the same nonce. -/
theorem compute_nonce_returns_least :
    ∀ (p v c ts ph : String) (bits : Nat) (timeout : Option ℚ)
      (timedOut : Nat → Bool) (n : Nat),
      timeoutActive timeout = false →
      validNonce p v c ts ph bits n →
      ∃ m, m ≤ n ∧ validNonce p v c ts ph bits m ∧
        (∀ k, k < m → ¬ validNonce p v c ts ph bits k) ∧
        ∀ fuel, m < fuel →
          compute_nonce p v c ts ph bits timeout timedOut fuel
            = some (some m) := by
  intro p v c ts ph bits timeout timedOut n hact hn
  have hex : ∃ k, validNonce p v c ts ph bits k := ⟨n, hn⟩
  refine ⟨Nat.find hex, Nat.find_min' hex hn, Nat.find_spec hex,
    fun k hk => Nat.find_min hex hk, fun fuel hfuel => ?_⟩
  rw [compute_nonce, hact]
  exact compute_nonce_aux_finds p v c ts ph bits timedOut (Nat.find hex)
    (Nat.find_spec hex) (fun k hk => Nat.find_min hex hk) fuel 0
    (Nat.zero_le _) (by omega)

/-- Witness for C8 at difficulty 0, where nonce 0 is already valid. -/
theorem compute_nonce_returns_least_witness :
    timeoutActive none = false ∧ validNonce "p" "v" "c" "t" "z" 0 0 ∧
      ∃ m, m ≤ 0 ∧ validNonce "p" "v" "c" "t" "z" 0 m ∧
        (∀ k, k < m → ¬ validNonce "p" "v" "c" "t" "z" 0 k) ∧
        ∀ fuel, m < fuel →
          compute_nonce "p" "v" "c" "t" "z" 0 none noTimeout fuel
            = some (some m) :=
  ⟨rfl, by decide,
   compute_nonce_returns_least "p" "v" "c" "t" "z" 0 none noTimeout 0 rfl
     (by decide)⟩

/-! ### Claims about `/vote` (`main.submit_vote`) -/

/-- C5: once the ledger holds a block for `(poll_id, voter_hash)`, every
later vote attempt carrying that pair — quote or commit, whatever its
`choice`, `nonce`, caller-sent timestamp, or server time — is rejected
with the 409 conflict and the ledger is returned unchanged. -/
theorem duplicate_vote_rejected :
    ∀ (db : List Block) (v : VoteData) (now : String) (nextId : Nat)
      (b : Block),
      b ∈ db → b.poll_id = v.poll_id → b.voter_hash = v.voter_hash →
      submit_vote db v now nextId =
        (.error ⟨409, "Voter has already voted in this poll"⟩, db) := by
  intro db v now nextId b hb h1 h2
  have hany : db.any
      (fun b => b.poll_id == v.poll_id && b.voter_hash == v.voter_hash)
        = true :=
    List.any_eq_true.mpr ⟨b, hb, by simp [h1, h2]⟩
  rw [submit_vote, if_pos hany]

/-- Witness for C5: a commit attempt (nonce present, different choice)
against a ledger that already holds the pair. -/
theorem duplicate_vote_rejected_witness :
    (⟨1, "p", "u", "yes", "t0", genesisHash, 3, "h1"⟩ : Block) ∈
        [(⟨1, "p", "u", "yes", "t0", genesisHash, 3, "h1"⟩ : Block)] ∧
      submit_vote [⟨1, "p", "u", "yes", "t0", genesisHash, 3, "h1"⟩]
          ⟨"p", "no", "u", some 77, some "t9"⟩ "t1" 2 =
        (.error ⟨409, "Voter has already voted in this poll"⟩,
         [⟨1, "p", "u", "yes", "t0", genesisHash, 3, "h1"⟩]) :=
  ⟨List.mem_singleton.mpr rfl,
   duplicate_vote_rejected [⟨1, "p", "u", "yes", "t0", genesisHash, 3, "h1"⟩]
     ⟨"p", "no", "u", some 77, some "t9"⟩ "t1" 2
     ⟨1, "p", "u", "yes", "t0", genesisHash, 3, "h1"⟩
     (List.mem_singleton.mpr rfl) rfl rfl⟩

/-- C1 counterexample: a Phase-1 quote for a poll in the `test_`
namespace returns the full 18-bit difficulty target, which differs from
the 6-bit target that the Phase-2 commit for the same poll verifies
against. -/
theorem phase1_target_counterexample :
    (submit_vote [] ⟨"test_p", "v", "a", none, none⟩ "2024-01-01T00:00:00"
        1).1 =
      .ok ⟨get_difficulty_target 18, genesisHash,
           "Compute nonce with 18-bit leading zero requirement"⟩ ∧
      get_difficulty_target 18 ≠ get_difficulty_target 6 := by decide

/-- C1 (amended): the Phase-1 quote returns the poll's current chain tip
hash (the genesis sentinel for an empty poll) together with the *default
18-bit* difficulty target for every namespace, `test_` polls included;
the Phase-2 commit then verifies `test_` polls at the reduced difficulty
6 and others at 18. -/
theorem submit_vote_quote_policy :
    ∀ (db : List Block) (v : VoteData) (now : String) (nextId : Nat),
      db.any (fun b => b.poll_id == v.poll_id && b.voter_hash == v.voter_hash)
          = false →
      (v.nonce = none →
        submit_vote db v now nextId =
          (.ok ⟨get_difficulty_target 18, get_latest_block_hash db v.poll_id,
                "Compute nonce with 18-bit leading zero requirement"⟩, db)) ∧
      get_latest_block_hash [] v.poll_id = genesisHash ∧
      (∀ n, v.nonce = some n →
        verify_pow v.poll_id v.voter_hash v.choice now
            (get_latest_block_hash db v.poll_id) n
            (if strStartsWith v.poll_id "test_" then 6 else 18) = false →
        submit_vote db v now nextId =
          (.error ⟨400, "Invalid proof of work"⟩, db)) := by
  intro db v now nextId hany
  refine ⟨fun hq => ?_, rfl, fun n hn hpow => ?_⟩
  · rw [submit_vote, if_neg (by simp [hany]), hq]
  · rw [submit_vote, if_neg (by simp [hany]), hn]
    simp only [hpow]
    simp

/-- Witness for C1's amended theorem: an empty ledger, a `test_` poll, a
quote, and a commit whose nonce fails the reduced 6-bit check. -/
theorem submit_vote_quote_policy_witness :
    ([] : List Block).any
        (fun b => b.poll_id == "test_p" && b.voter_hash == "a") = false ∧
      submit_vote [] ⟨"test_p", "v", "a", none, none⟩ "2024-01-01T00:00:00" 1 =
        (.ok ⟨get_difficulty_target 18, get_latest_block_hash [] "test_p",
              "Compute nonce with 18-bit leading zero requirement"⟩, []) ∧
      verify_pow "test_p" "a" "v" "2024-01-01T00:00:00"
          (get_latest_block_hash [] "test_p") 0
          (if strStartsWith "test_p" "test_" then 6 else 18) = false ∧
      submit_vote [] ⟨"test_p", "v", "a", some 0, none⟩ "2024-01-01T00:00:00"
          1 =
        (.error ⟨400, "Invalid proof of work"⟩, []) :=
  ⟨rfl,
   (submit_vote_quote_policy [] ⟨"test_p", "v", "a", none, none⟩
       "2024-01-01T00:00:00" 1 rfl).1 rfl,
   by decide,
   (submit_vote_quote_policy [] ⟨"test_p", "v", "a", some 0, none⟩
       "2024-01-01T00:00:00" 1 rfl).2.2 0 rfl (by decide)⟩

/-- C2: the timestamp hashed, PoW-verified and stored by a Phase-2 commit
is the server's own clock reading `now`; any timestamp the caller sends is
ignored in every phase, the Phase-1 quote is independent of the server
clock (so no timestamp is quoted back), and a successful commit hands the
INSERT a block whose `timestamp` field is `now`, whose `prev_hash` is the
tip read at commit time, and whose PoW was checked over that very pair. -/
theorem commit_time_server_sampled :
    ∀ (db : List Block) (v : VoteData) (now now2 : String) (nextId : Nat)
      (t : Option String) (n : Nat),
      (submit_vote db { v with timestamp := t } now nextId =
        submit_vote db v now nextId) ∧
      (v.nonce = none →
        submit_vote db v now nextId = submit_vote db v now2 nextId) ∧
      (v.nonce = some n →
        db.any (fun b => b.poll_id == v.poll_id &&
          b.voter_hash == v.voter_hash) = false →
        verify_pow v.poll_id v.voter_hash v.choice now
            (get_latest_block_hash db v.poll_id) n
            (if strStartsWith v.poll_id "test_" then 6 else 18) = true →
        submit_vote db v now nextId =
          commit_vote db
            ⟨nextId, v.poll_id, v.voter_hash, v.choice, now,
             get_latest_block_hash db v.poll_id, n,
             hash_block v.poll_id v.voter_hash v.choice now
               (get_latest_block_hash db v.poll_id) n⟩) := by
  intro db v now now2 nextId t n
  refine ⟨?_, fun hq => ?_, fun hn hany hpow => ?_⟩
  · cases v; rfl
  · rw [submit_vote, submit_vote, hq]
  · rw [submit_vote, if_neg (by simp [hany]), hn]
    simp only [hpow]
    simp

/-- Witness for C2: a mined 6-bit nonce for a `test_` poll; the commit
hands the INSERT the block stamped with the server time. -/
theorem commit_time_server_sampled_witness :
    (⟨"test_w", "yes", "userx", some 8, some "1999-01-01T00:00:00"⟩
        : VoteData).nonce = some 8 ∧
      verify_pow "test_w" "userx" "yes" "2024-01-01T00:00:00"
          (get_latest_block_hash [] "test_w") 8
          (if strStartsWith "test_w" "test_" then 6 else 18) = true ∧
      submit_vote [] ⟨"test_w", "yes", "userx", some 8, some "1999-01-01T00:00:00"⟩
          "2024-01-01T00:00:00" 1 =
        commit_vote []
          ⟨1, "test_w", "userx", "yes", "2024-01-01T00:00:00",
           get_latest_block_hash [] "test_w", 8,
           hash_block "test_w" "userx" "yes" "2024-01-01T00:00:00"
             (get_latest_block_hash [] "test_w") 8⟩ :=
  ⟨rfl, by decide,
   (commit_time_server_sampled []
       ⟨"test_w", "yes", "userx", some 8, some "1999-01-01T00:00:00"⟩
       "2024-01-01T00:00:00" "x" 1 none 8).2.2 rfl rfl (by decide)⟩

/-- C3 counterexample: a loser of the commit race — its block hits the
`unique_vote` constraint because the winner's block is already stored —
receives the generic HTTP 500 "Failed to save vote" error, not the 409
conflict signal the endpoint uses for detected duplicates; the ledger is
returned unchanged. -/
theorem commit_conflict_counterexample :
    commit_vote [⟨1, "p", "u", "yes", "t0", genesisHash, 3, "hw"⟩]
        ⟨2, "p", "u", "no", "t1", genesisHash, 4, "hl"⟩ =
      (.error ⟨500,
        "Failed to save vote: UNIQUE constraint failed: blocks.poll_id, blocks.voter_hash"⟩,
       [⟨1, "p", "u", "yes", "t0", genesisHash, 3, "hw"⟩]) ∧
      (commit_vote [⟨1, "p", "u", "yes", "t0", genesisHash, 3, "hw"⟩]
          ⟨2, "p", "u", "no", "t1", genesisHash, 4, "hl"⟩).1 ≠
        .error ⟨409, "Voter has already voted in this poll"⟩ := by decide

/-- C3 (amended): when concurrent commits race past the advisory check, at
most one INSERT succeeds — success is impossible while a block with the
same `(poll_id, voter_hash)` is stored, a winner appends exactly its own
block, and a loser's transaction is rolled back so the ledger is returned
unchanged; the loser is answered, not silently dropped, but with the
generic HTTP 500 "Failed to save vote" error rather than a
conflict-specific signal. -/
theorem commit_vote_race :
    ∀ (db : List Block) (b : Block),
      ((∃ w ∈ db, w.poll_id = b.poll_id ∧ w.voter_hash = b.voter_hash) →
        commit_vote db b =
          (.error ⟨500,
            "Failed to save vote: UNIQUE constraint failed: blocks.poll_id, blocks.voter_hash"⟩,
           db)) ∧
      (∀ e, save_block db b = .error e →
        commit_vote db b = (.error ⟨500, "Failed to save vote: " ++ e⟩, db)) ∧
      (∀ r db2, commit_vote db b = (.ok r, db2) →
        db2 = db ++ [b] ∧ r = ⟨"", "", "Vote successfully recorded"⟩ ∧
        ∀ w ∈ db, ¬ (w.poll_id = b.poll_id ∧ w.voter_hash = b.voter_hash)) := by
  intro db b
  refine ⟨fun ⟨w, hw, h1, h2⟩ => ?_, fun e he => ?_, fun r db2 hok => ?_⟩
  · have hany : db.any
        (fun x => x.poll_id == b.poll_id && x.voter_hash == b.voter_hash)
          = true :=
      List.any_eq_true.mpr ⟨w, hw, by simp [h1, h2]⟩
    rw [commit_vote, save_block, if_pos hany]
    rfl
  · rw [commit_vote, he]
  · rw [commit_vote] at hok
    rw [save_block] at hok
    by_cases h1 : db.any
        (fun x => x.poll_id == b.poll_id && x.voter_hash == b.voter_hash)
          = true
    · rw [if_pos h1] at hok
      simp at hok
    · rw [if_neg h1] at hok
      by_cases h2 : db.any (fun x => x.block_hash == b.block_hash) = true
      · rw [if_pos h2] at hok
        simp at hok
      · rw [if_neg h2] at hok
        simp only [Prod.mk.injEq, Except.ok.injEq] at hok
        refine ⟨hok.2.symm, hok.1.symm, fun w hw hpair => ?_⟩
        exact h1 (List.any_eq_true.mpr ⟨w, hw, by simp [hpair.1, hpair.2]⟩)

/-- Witness for C3's amended theorem: the loser branch at a concrete
ledger, plus the success branch on an empty ledger. -/
theorem commit_vote_race_witness :
    (∃ w ∈ [(⟨1, "p", "u", "yes", "t0", genesisHash, 3, "hw"⟩ : Block)],
        w.poll_id = "p" ∧ w.voter_hash = "u") ∧
      commit_vote [⟨1, "p", "u", "yes", "t0", genesisHash, 3, "hw"⟩]
          ⟨2, "p", "u", "no", "t1", genesisHash, 4, "hl"⟩ =
        (.error ⟨500,
          "Failed to save vote: UNIQUE constraint failed: blocks.poll_id, blocks.voter_hash"⟩,
         [⟨1, "p", "u", "yes", "t0", genesisHash, 3, "hw"⟩]) ∧
      ([] ++ [(⟨1, "q", "w", "yes", "t0", genesisHash, 5, "hq"⟩ : Block)] =
          [(⟨1, "q", "w", "yes", "t0", genesisHash, 5, "hq"⟩ : Block)] ∧
        (⟨"", "", "Vote successfully recorded"⟩ : VoteResponse) =
          ⟨"", "", "Vote successfully recorded"⟩ ∧
        ∀ w ∈ ([] : List Block),
          ¬ (w.poll_id = "q" ∧ w.voter_hash = "w")) :=
  ⟨⟨⟨1, "p", "u", "yes", "t0", genesisHash, 3, "hw"⟩,
      List.mem_singleton.mpr rfl, rfl, rfl⟩,
   (commit_vote_race [⟨1, "p", "u", "yes", "t0", genesisHash, 3, "hw"⟩]
       ⟨2, "p", "u", "no", "t1", genesisHash, 4, "hl"⟩).1
     ⟨⟨1, "p", "u", "yes", "t0", genesisHash, 3, "hw"⟩,
      List.mem_singleton.mpr rfl, rfl, rfl⟩,
   (commit_vote_race [] ⟨1, "q", "w", "yes", "t0", genesisHash, 5, "hq"⟩).2.2
     ⟨"", "", "Vote successfully recorded"⟩
     [⟨1, "q", "w", "yes", "t0", genesisHash, 5, "hq"⟩] (by decide)⟩

/-! ### Claims about `main.verify_chain_integrity` -/

/-- The three per-block conditions of the chain walk: (a) PoW holds at the
supplied difficulty, (b) the stored `block_hash` equals the hash recomputed
from the stored fields, (c) the stored `prev_hash` equals the expected
previous hash. -/
def block_ok (bits : Nat) (prev : String) (b : Block) : Prop :=
  verify_pow b.poll_id b.voter_hash b.choice b.timestamp b.prev_hash b.nonce
      bits = true ∧
  b.block_hash = hash_block b.poll_id b.voter_hash b.choice b.timestamp
      b.prev_hash b.nonce ∧
  b.prev_hash = prev

instance block_ok.dec (bits : Nat) (prev : String) (b : Block) :
    Decidable (block_ok bits prev b) := by
  unfold block_ok
  infer_instance

/-- The expected previous hash of the block at index `i` of a chain walked
with initial expected hash `prev0`: `prev0` for the first block, the
`(i-1)`-th block's stored hash afterwards. -/
def chain_prev : String → List Block → Nat → String
  | prev0, _, 0 => prev0
  | prev0, [], _ + 1 => prev0
  | _, b :: rest, i + 1 => chain_prev b.block_hash rest i

theorem verify_chain_aux_eq_true_iff (bits : Nat) :
    ∀ (chain : List Block) (prev : String),
      verify_chain_aux bits prev chain = true ↔
        ∀ i (h : i < chain.length),
          block_ok bits (chain_prev prev chain i) (chain.get ⟨i, h⟩) := by
  intro chain
  induction chain with
  | nil => intro prev; simp [verify_chain_aux]
  | cons b rest ih =>
    intro prev
    have hstep : verify_chain_aux bits prev (b :: rest) = true ↔
        (block_ok bits prev b ∧
          verify_chain_aux bits b.block_hash rest = true) := by
      rw [verify_chain_aux]
      by_cases h1 : verify_pow b.poll_id b.voter_hash b.choice b.timestamp
          b.prev_hash b.nonce bits = true
      · by_cases h2 : b.block_hash = hash_block b.poll_id b.voter_hash
            b.choice b.timestamp b.prev_hash b.nonce
        · by_cases h3 : b.prev_hash = prev
          · simp [h1, h2, h3, block_ok]
          · simp [h1, h2, h3, block_ok]
        · simp [h1, h2, block_ok]
      · simp [h1, block_ok]
    rw [hstep, ih b.block_hash]
    constructor
    · rintro ⟨hb, hrest⟩ i h
      cases i with
      | zero => exact hb
      | succ j => exact hrest j (Nat.lt_of_succ_lt_succ h)
    · intro H
      exact ⟨H 0 (Nat.succ_pos _), fun j hj => H (j + 1) (Nat.succ_lt_succ hj)⟩

/-- C6: `verify_chain_integrity` accepts an empty chain; for the poll's
blocks in insertion order it returns `true` iff every block, walked with
the expected previous hash threaded from the genesis sentinel, satisfies
(a) PoW at the supplied difficulty, (b) stored hash = recomputed hash,
(c) `prev_hash` = expected; and in boolean mode a walk that reaches a
violating block returns `false` whatever blocks follow it. -/
theorem verify_chain_integrity_spec :
    ∀ (db : List Block) (poll_id : String) (bits : Nat),
      (db.filter (fun b => b.poll_id == poll_id) = [] →
        verify_chain_integrity db poll_id bits = true) ∧
      (verify_chain_integrity db poll_id bits = true ↔
        ∀ i (h : i < (db.filter (fun b => b.poll_id == poll_id)).length),
          block_ok bits
            (chain_prev genesisHash (db.filter (fun b => b.poll_id == poll_id)) i)
            ((db.filter (fun b => b.poll_id == poll_id)).get ⟨i, h⟩)) ∧
      (∀ prev bad rest, ¬ block_ok bits prev bad →
        verify_chain_aux bits prev (bad :: rest) = false) := by
  intro db poll_id bits
  refine ⟨fun hf => ?_, ?_, fun prev bad rest hbad => ?_⟩
  · rw [verify_chain_integrity, hf]
    rfl
  · rw [verify_chain_integrity]
    exact verify_chain_aux_eq_true_iff bits _ genesisHash
  · rw [verify_chain_aux]
    by_cases h1 : verify_pow bad.poll_id bad.voter_hash bad.choice
        bad.timestamp bad.prev_hash bad.nonce bits = true
    · by_cases h2 : bad.block_hash = hash_block bad.poll_id bad.voter_hash
          bad.choice bad.timestamp bad.prev_hash bad.nonce
      · have h3 : bad.prev_hash ≠ prev := fun h => hbad ⟨h1, h2, h⟩
        simp [h1, h2, h3]
      · simp [h1, h2]
    · simp [h1]

/-- Witness for C6: the empty chain is accepted, and a walk that hits a
block violating the checks is rejected no matter what follows. -/
theorem verify_chain_integrity_spec_witness :
    (([] : List Block).filter (fun b => b.poll_id == "p") = []) ∧
      verify_chain_integrity [] "p" 18 = true ∧
      ¬ block_ok 18 genesisHash ⟨1, "p", "v", "c", "t", "x", 0, "zz"⟩ ∧
      verify_chain_aux 18 genesisHash
        [⟨1, "p", "v", "c", "t", "x", 0, "zz"⟩] = false :=
  ⟨rfl, (verify_chain_integrity_spec [] "p" 18).1 rfl, by decide,
   (verify_chain_integrity_spec [] "p" 18).2.2 genesisHash
     ⟨1, "p", "v", "c", "t", "x", 0, "zz"⟩ [] (by decide)⟩

/-! ### Claims about `SQLManager.verify_blockchain_integrity` -/

/-- The stored hash of the last block of poll `p` in a list (the
`prev_hash_map` entry after walking that list). -/
def lastPollHash : List Block → String → Option String
  | [], _ => none
  | b :: rest, p =>
    match lastPollHash rest p with
    | some h => some h
    | none => if b.poll_id = p then some b.block_hash else none

/-- The `prev_hash_map` state after walking a list of blocks. -/
def extendMap (m : String → Option String) : List Block → (String → Option String)
  | [] => m
  | b :: rest =>
    extendMap (fun q => if q = b.poll_id then some b.block_hash else m q) rest

theorem extendMap_eq :
    ∀ (pre : List Block) (m : String → Option String) (p : String),
      extendMap m pre p =
        match lastPollHash pre p with
        | some h => some h
        | none => m p := by
  intro pre
  induction pre with
  | nil => intro m p; rfl
  | cons b rest ih =>
    intro m p
    show extendMap (fun q => if q = b.poll_id then some b.block_hash else m q)
        rest p = _
    rw [ih]
    cases hr : lastPollHash rest p with
    | some h => simp [lastPollHash, hr]
    | none =>
      by_cases hp : b.poll_id = p
      · simp [lastPollHash, hr, hp]
      · have hp2 : ¬ (p = b.poll_id) := fun h => hp h.symm
        simp [lastPollHash, hr, hp, hp2]

theorem extendMap_none (pre : List Block) (p : String) :
    extendMap (fun _ => none) pre p = lastPollHash pre p := by
  rw [extendMap_eq]
  cases lastPollHash pre p <;> rfl

theorem linkWalk_mem_step :
    ∀ (db : List Block) (m : String → Option String) (i : Nat)
      (h : i < db.length) (e : String),
      e ∈ linkErrsStep (extendMap m (db.take i)) (db.get ⟨i, h⟩) →
      e ∈ linkWalk m db := by
  intro db
  induction db with
  | nil => intro m i h; exact absurd h (Nat.not_lt_zero i)
  | cons b rest ih =>
    intro m i h e he
    cases i with
    | zero =>
      rw [linkWalk]
      exact List.mem_append_left _ he
    | succ j =>
      rw [linkWalk]
      exact List.mem_append_right _
        (ih _ j (Nat.lt_of_succ_lt_succ h) e he)

/-- C4 counterexample: a single stored block whose proof-of-work fails at
the system difficulty 18 and whose stored `block_hash` differs from the
hash recomputed from its stored fields is reported fully valid, with no
violation recorded, by the diagnostic pass — which checks only chain
linkage and duplicate `(poll_id, voter_hash)` groups. -/
theorem verify_blockchain_integrity_counterexample :
    verify_blockchain_integrity
        [⟨1, "p", "v", "c", "2024-01-01T00:00:00", genesisHash, 0, "deadbeef"⟩]
      = (true, []) ∧
      verify_pow "p" "v" "c" "2024-01-01T00:00:00" genesisHash 0 18 = false ∧
      "deadbeef" ≠ hash_block "p" "v" "c" "2024-01-01T00:00:00" genesisHash 0
    := by decide

/-- C4 (amended): the diagnostic pass reports the ledger valid iff it
records no violation; it records a violation for every
`(poll_id, voter_hash)` group with more than one block and, continuing
past earlier violations, a violation naming the block id for every block
whose `prev_hash` fails the linkage check against the last preceding
block of its poll; it verifies neither proof-of-work nor stored hashes
(see the counterexample). -/
theorem verify_blockchain_integrity_checks :
    ∀ db : List Block,
      ((verify_blockchain_integrity db).1 = true ↔
        (verify_blockchain_integrity db).2 = []) ∧
      (∀ p v,
        2 ≤ ((votePairs db).filter (fun q => decide (q = (p, v)))).length →
        dupErr (p, v) ∈ (verify_blockchain_integrity db).2) ∧
      (∀ i (h : i < db.length) (e : String),
        e ∈ linkErrsStep (lastPollHash (db.take i)) (db.get ⟨i, h⟩) →
        e ∈ (verify_blockchain_integrity db).2) := by
  intro db
  refine ⟨?_, fun p v hcount => ?_, fun i h e he => ?_⟩
  · simp [verify_blockchain_integrity, Nat.beq_eq_true_eq,
      List.length_eq_zero]
  · have hpos : 0 <
        ((votePairs db).filter (fun q => decide (q = (p, v)))).length := by
      omega
    obtain ⟨q, hq⟩ := List.exists_mem_of_length_pos hpos
    have hq2 := List.mem_filter.mp hq
    have hqe : q = (p, v) := of_decide_eq_true hq2.2
    have hmem : (p, v) ∈ votePairs db := hqe ▸ hq2.1
    show dupErr (p, v) ∈ linkWalk (fun _ => none) db ++ (dupPairs db).map dupErr
    refine List.mem_append_right _ (List.mem_map_of_mem dupErr ?_)
    exact List.mem_filter.mpr ⟨List.mem_dedup.mpr hmem, decide_eq_true hcount⟩
  · have hfun : extendMap (fun _ => none) (db.take i) =
        lastPollHash (db.take i) := funext (extendMap_none _)
    have he2 : e ∈ linkErrsStep (extendMap (fun _ => none) (db.take i))
        (db.get ⟨i, h⟩) := by rw [hfun]; exact he
    show e ∈ linkWalk (fun _ => none) db ++ (dupPairs db).map dupErr
    exact List.mem_append_left _
      (linkWalk_mem_step db (fun _ => none) i h e he2)

/-- Witness for C4's amended theorem: a two-block ledger with a duplicate
pair and a linkage violation on the second block; both violations are
recorded. -/
theorem verify_blockchain_integrity_checks_witness :
    2 ≤ ((votePairs
          [⟨1, "p", "v", "c", "t", genesisHash, 0, "h1"⟩,
           ⟨2, "p", "v", "d", "t", "hX", 1, "h2"⟩]).filter
            (fun q => decide (q = ("p", "v")))).length ∧
      dupErr ("p", "v") ∈ (verify_blockchain_integrity
        [⟨1, "p", "v", "c", "t", genesisHash, 0, "h1"⟩,
         ⟨2, "p", "v", "d", "t", "hX", 1, "h2"⟩]).2 ∧
      "ブロックID 2: 前ブロックハッシュが不正です" ∈
        linkErrsStep
          (lastPollHash ([⟨1, "p", "v", "c", "t", genesisHash, 0, "h1"⟩,
            ⟨2, "p", "v", "d", "t", "hX", 1, "h2"⟩].take 1))
          ([⟨1, "p", "v", "c", "t", genesisHash, 0, "h1"⟩,
            ⟨2, "p", "v", "d", "t", "hX", 1, "h2"⟩].get ⟨1, by decide⟩) ∧
      "ブロックID 2: 前ブロックハッシュが不正です" ∈
        (verify_blockchain_integrity
          [⟨1, "p", "v", "c", "t", genesisHash, 0, "h1"⟩,
           ⟨2, "p", "v", "d", "t", "hX", 1, "h2"⟩]).2 :=
  ⟨by decide,
   (verify_blockchain_integrity_checks
       [⟨1, "p", "v", "c", "t", genesisHash, 0, "h1"⟩,
        ⟨2, "p", "v", "d", "t", "hX", 1, "h2"⟩]).2.1 "p" "v" (by decide),
   by decide,
   (verify_blockchain_integrity_checks
       [⟨1, "p", "v", "c", "t", genesisHash, 0, "h1"⟩,
        ⟨2, "p", "v", "d", "t", "hX", 1, "h2"⟩]).2.2 1 (by decide)
     "ブロックID 2: 前ブロックハッシュが不正です" (by decide)⟩

end HashVote
